import Mathlib

/-!
Verification of the expectation overlap-validation and mutation subsystem of
the CoachingConfig repository (the server-side functions `checkForOverlap`,
`validateExpectation`, `addNewExpectation`, `updateExpectationData` and
`setExpectationStatus` operating on the `tbl_coaching_expectations` table).

The table is modelled as the list of its data rows (the sheet's rows from row 3
down), each row carrying the nine columns the subsystem reads and writes:
id, resourceId, performance, oneToOne, sideBySide, startDate, endDate,
expectationType, active.  The audit columns (10-13) are written only on the
success paths and are never read back by the subsystem, so they are outside the
modelled projection.

Dates are modelled as integers.  JavaScript compares `Date` objects by their
numeric timestamp, so only the ordering of date values matters; the two
constants below stand for the timestamps of 1/1/1990 and 12/31/3000 (encoded
as day numbers since 1970-01-01).
-/

def date19900101 : Int := 7305

def date30001231 : Int := 376564

/-- One data row of `tbl_coaching_expectations`, columns 1-9 in sheet order. -/
structure ExpRow where
  id : Int
  resourceId : Int
  performance : Int
  oneToOne : Int
  sideBySide : Int
  startDate : Int
  endDate : Int
  expectationType : String
  active : Bool
deriving DecidableEq

/-- A caller-supplied candidate expectation object (the `expectation` argument
of `addNewExpectation` and `updateExpectationData`): the same fields minus the
repository-assigned id. -/
structure Expectation where
  resourceId : Int
  performance : Int
  oneToOne : Int
  sideBySide : Int
  startDate : Int
  endDate : Int
  expectationType : String
  active : Bool
deriving DecidableEq

/-- The error kinds the subsystem throws, distinguished in the source by their
message strings: `Validation failed.`, `... due to conflicting expectation.
Search id{...}`, `Expectation ID (...) not found.`, and the failure of the
empty-table range read / `Math.max()` in `addNewExpectation`. -/
inductive ApiErr where
  | validationFailed
  | conflictingExpectation (conflictingId : Int)
  | notFound (expectationId : Int)
  | emptyStore
deriving DecidableEq

/-- The three-way inclusive interval test of `checkForOverlap`: the new start
falls within the existing interval, or the new end does, or the new interval
fully contains the existing one. -/
def overlapTest (newStart newEnd existStart existEnd : Int) : Prop :=
  (existStart ≤ newStart ∧ newStart ≤ existEnd) ∨
  (existStart ≤ newEnd ∧ newEnd ≤ existEnd) ∨
  (newStart ≤ existStart ∧ existEnd ≤ newEnd)

instance (a b c d : Int) : Decidable (overlapTest a b c d) := by
  unfold overlapTest; infer_instance

/-- The row filter of `checkForOverlap`'s loop, verbatim: the row is active,
its resourceId and expectationType strictly equal the query's, its id differs
from the exclusion, and the three-way inclusive date test fires. -/
def scanHit (resourceId : Int) (expectationType : String)
    (startDate endDate ignoreId : Int) (r : ExpRow) : Prop :=
  r.active = true ∧ r.resourceId = resourceId ∧
    r.expectationType = expectationType ∧ r.id ≠ ignoreId ∧
    overlapTest startDate endDate r.startDate r.endDate

instance (rid : Int) (ty : String) (s e ig : Int) (r : ExpRow) :
    Decidable (scanHit rid ty s e ig r) := by
  unfold scanHit; infer_instance

/-- `checkForOverlap(resourceId, expectationType, startDate, endDate, ignoreId)`:
scans the data rows in storage order; a row conflicts when it passes
`scanHit`; `ignoreId` is `parseInt` of the parameter, which defaults to -1.
Returns the first conflicting row's id, else -1.  The source gives `ignoreId`
the default value -1; the embedding passes -1 explicitly at the call sites
that omit it. -/
def checkForOverlap (store : List ExpRow) (resourceId : Int)
    (expectationType : String) (startDate endDate : Int) (ignoreId : Int) : Int :=
  match store with
  | [] => -1
  | row :: rest =>
      if scanHit resourceId expectationType startDate endDate ignoreId row then
        row.id
      else
        checkForOverlap rest resourceId expectationType startDate endDate ignoreId

/-- `validateExpectation(expectation)`: resolves when the three cadence counts
are numbers at least 0, the start date is on or after 1/1/1990, the end date
is on or before 12/31/3000 and the end date is not before the start date;
rejects with the validation error otherwise.  A pure check with no I/O. -/
def validateExpectation (e : Expectation) : Except ApiErr Unit :=
  if 0 ≤ e.performance ∧ 0 ≤ e.oneToOne ∧ 0 ≤ e.sideBySide ∧
      date19900101 ≤ e.startDate ∧ e.endDate ≤ date30001231 ∧
      e.startDate ≤ e.endDate then
    Except.ok ()
  else
    Except.error ApiErr.validationFailed

/-- `idColumn.findIndex(id => Number(id) === Number(expectationId))` followed
by the read of that row: the first row whose id column equals the requested
id, if any. -/
def findById (store : List ExpRow) (expectationId : Int) : Option ExpRow :=
  match store with
  | [] => none
  | row :: rest =>
      if row.id = expectationId then some row else findById rest expectationId

/-- Writing a row range back at the located row index: replaces the first row
whose id column equals `expectationId` and keeps every other row. -/
def replaceFirstById (store : List ExpRow) (expectationId : Int)
    (newRow : ExpRow) : List ExpRow :=
  match store with
  | [] => []
  | row :: rest =>
      if row.id = expectationId then newRow :: rest
      else row :: replaceFirstById rest expectationId newRow

/-- The row `addNewExpectation` appends / `updateExpectationData` writes:
the given id in column 1 followed by the candidate's fields in columns 2-9. -/
def toRow (rowId : Int) (e : Expectation) : ExpRow :=
  { id := rowId, resourceId := e.resourceId, performance := e.performance,
    oneToOne := e.oneToOne, sideBySide := e.sideBySide,
    startDate := e.startDate, endDate := e.endDate,
    expectationType := e.expectationType, active := e.active }

/-- `Math.max(...idColumn.map(Number)) + 1` over the id column.  When the
table has no data rows the source has no finite value here: the range read
`getRange(3, 1, getLastRow() - 2)` is given zero rows and throws, and
`Math.max()` of an empty argument list would be `-Infinity`; modelled as
`none`. -/
def newIdOfStore (store : List ExpRow) : Option Int :=
  match store with
  | [] => none
  | row :: rest => some ((rest.map (fun r => r.id)).foldl max row.id + 1)

/-- `addNewExpectation(expectation)`: runs `checkForOverlap` with the default
(-1) exclusion; on a conflict throws and writes nothing; otherwise computes
`newId = Math.max(...ids) + 1`, appends the new nine-column row and returns
the new id.  The source performs no call to `validateExpectation` on this
path.  The result pairs the thrown-or-returned outcome with the table as left
by the operation. -/
def addNewExpectation (store : List ExpRow) (e : Expectation) :
    Except ApiErr Int × List ExpRow :=
  let conflict := checkForOverlap store e.resourceId e.expectationType
      e.startDate e.endDate (-1)
  if conflict ≠ -1 then
    (Except.error (ApiErr.conflictingExpectation conflict), store)
  else
    match newIdOfStore store with
    | none => (Except.error ApiErr.emptyStore, store)
    | some newId => (Except.ok newId, store ++ [toRow newId e])

/-- `updateExpectationData(expectationId, expectation)`: validates the
candidate, locates the row by id (not-found error if absent), runs
`checkForOverlap` passing `expectationId` as the exclusion, and on success
rewrites columns 2-9 of the located row with the candidate's fields (the id
column is untouched). -/
def updateExpectationData (store : List ExpRow) (expectationId : Int)
    (e : Expectation) : Except ApiErr Unit × List ExpRow :=
  match validateExpectation e with
  | Except.error err => (Except.error err, store)
  | Except.ok _ =>
      match findById store expectationId with
      | none => (Except.error (ApiErr.notFound expectationId), store)
      | some row =>
          let conflict := checkForOverlap store e.resourceId e.expectationType
              e.startDate e.endDate expectationId
          if conflict ≠ -1 then
            (Except.error (ApiErr.conflictingExpectation conflict), store)
          else
            (Except.ok (), replaceFirstById store expectationId (toRow row.id e))

/-- `setExpectationStatus(expectationId, isActive)`: locates the row by id;
when `isActive` is true it re-reads the located row's resourceId, start and
end dates and expectationType and runs `checkForOverlap` on them WITHOUT any
exclusion (the `ignoreId` parameter is left at its default -1); on a conflict
it throws, otherwise it writes the active flag (column 9).  Deactivation
performs no overlap check at all.  When the id is absent the source computes
row index 2 and, for activation, reads the header row there before failing;
either way it throws without writing - modelled as the not-found error. -/
def setExpectationStatus (store : List ExpRow) (expectationId : Int)
    (isActive : Bool) : Except ApiErr Unit × List ExpRow :=
  match findById store expectationId with
  | none => (Except.error (ApiErr.notFound expectationId), store)
  | some row =>
      if isActive then
        let conflict := checkForOverlap store row.resourceId
            row.expectationType row.startDate row.endDate (-1)
        if conflict ≠ -1 then
          (Except.error (ApiErr.conflictingExpectation conflict), store)
        else
          (Except.ok (), replaceFirstById store expectationId
            { row with active := isActive })
      else
        (Except.ok (), replaceFirstById store expectationId
          { row with active := isActive })

/-!
## Effect traces

The claims about locking and about which operations read the table are settled
over effect traces: each operation's trace lists, in program order, the
external calls its source performs.  `scanRows` is the full nine-column range
read done by `checkForOverlap`; `readIdCol` the id-column read used to locate
rows / compute the new id; `readRowRange` the seven-column row read of
`setExpectationStatus`; `readEmployee` the Employee-sheet read of
`getUserEmID`; `writeCell` a `setValue`/`setValues` write; `appendRow` an
`appendRow` call; `lockAcquire` a `LockService` `waitLock` acquisition. -/
inductive Effect where
  | lockAcquire
  | scanRows
  | readIdCol
  | readRowRange
  | readEmployee
  | writeCell
  | appendRow
deriving DecidableEq

/-- `_withLock(callback)` (the question/form API helper): acquires the script
lock, waiting at most `LOCK_WAIT_TIME` (3 minutes) and failing if it cannot,
then runs the callback's effects inside the critical section. -/
def withLockTrace (inner : List Effect) : List Effect :=
  Effect.lockAcquire :: inner

/-- `_addRow(sheet, data)` from the question/form API: an append performed
under `_withLock`.  Included to ground the lock effect: the lock wrapper is
used by the question/form helpers, and by none of the expectation operations
below. -/
def addRowTrace : List Effect :=
  withLockTrace [Effect.appendRow]

/-- `updateModifiedBy(sheet, row, emIdColumn, dateColumn)`: `getUserEmID`
reads the Employee sheet, then two `setValue` writes stamp the modifier id
and modification date. -/
def updateModifiedByTrace : List Effect :=
  [Effect.readEmployee, Effect.writeCell, Effect.writeCell]

/-- The effects of `addNewExpectation` in program order: the overlap scan,
then (no conflict) the id-column read, the append and the audit stamping.
A conflict or the empty-table failure aborts the trace at the throw. -/
def addNewExpectationTrace (store : List ExpRow) (e : Expectation) :
    List Effect :=
  let conflict := checkForOverlap store e.resourceId e.expectationType
      e.startDate e.endDate (-1)
  if conflict ≠ -1 then
    [Effect.scanRows]
  else
    match newIdOfStore store with
    | none => [Effect.scanRows, Effect.readIdCol]
    | some _ =>
        [Effect.scanRows, Effect.readIdCol, Effect.appendRow] ++
          updateModifiedByTrace

/-- The effects of `updateExpectationData` in program order: validation does
no I/O; then the id-column read, and in the found branch the overlap scan,
the row write and the audit stamping. -/
def updateExpectationDataTrace (store : List ExpRow) (expectationId : Int)
    (e : Expectation) : List Effect :=
  match validateExpectation e with
  | Except.error _ => []
  | Except.ok _ =>
      match findById store expectationId with
      | none => [Effect.readIdCol]
      | some _ =>
          let conflict := checkForOverlap store e.resourceId e.expectationType
              e.startDate e.endDate expectationId
          if conflict ≠ -1 then [Effect.readIdCol, Effect.scanRows]
          else [Effect.readIdCol, Effect.scanRows, Effect.writeCell] ++
            updateModifiedByTrace

/-- The effects of `setExpectationStatus` in program order: the id-column
read; when activating, the row read and the overlap scan (also on the
not-found path, where the source reads the header row before failing); then
on the write path the active-flag write and the audit stamping. -/
def setExpectationStatusTrace (store : List ExpRow) (expectationId : Int)
    (isActive : Bool) : List Effect :=
  match findById store expectationId with
  | none =>
      if isActive then [Effect.readIdCol, Effect.readRowRange, Effect.scanRows]
      else [Effect.readIdCol]
  | some row =>
      if isActive then
        let conflict := checkForOverlap store row.resourceId
            row.expectationType row.startDate row.endDate (-1)
        if conflict ≠ -1 then
          [Effect.readIdCol, Effect.readRowRange, Effect.scanRows]
        else
          [Effect.readIdCol, Effect.readRowRange, Effect.scanRows,
            Effect.writeCell] ++ updateModifiedByTrace
      else [Effect.readIdCol, Effect.writeCell] ++ updateModifiedByTrace

/-!
## The overlap-freedom invariant and store well-formedness

Claim-side vocabulary: two rows conflict when both are active, share the
resource/type key and their inclusive `[startDate, endDate]` intervals
intersect (a nonempty set intersection: some date lies in both, which covers
shared boundaries and full containment in either direction). -/

/-- Same resourceId and expectationType. -/
def sameKey (a b : ExpRow) : Prop :=
  a.resourceId = b.resourceId ∧ a.expectationType = b.expectationType

instance (a b : ExpRow) : Decidable (sameKey a b) := by
  unfold sameKey; infer_instance

/-- The inclusive intervals `[a.startDate, a.endDate]` and
`[b.startDate, b.endDate]` share at least one point. -/
def intervalsIntersect (a b : ExpRow) : Prop :=
  max a.startDate b.startDate ≤ min a.endDate b.endDate

instance (a b : ExpRow) : Decidable (intervalsIntersect a b) := by
  unfold intervalsIntersect; infer_instance

/-- Two rows violate the invariant together: both active, same key,
intersecting date intervals. -/
def activeConflict (a b : ExpRow) : Prop :=
  a.active = true ∧ b.active = true ∧ sameKey a b ∧ intervalsIntersect a b

instance (a b : ExpRow) : Decidable (activeConflict a b) := by
  unfold activeConflict; infer_instance

/-- The invariant: no two (distinct positions of) active rows with the same
key have intersecting date intervals. -/
def overlapFree : List ExpRow → Prop
  | [] => True
  | row :: rest => (∀ x ∈ rest, ¬ activeConflict row x) ∧ overlapFree rest

instance overlapFreeDecidable : (l : List ExpRow) → Decidable (overlapFree l)
  | [] => isTrue trivial
  | row :: rest =>
      have : Decidable (overlapFree rest) := overlapFreeDecidable rest
      inferInstanceAs
        (Decidable ((∀ x ∈ rest, ¬ activeConflict row x) ∧ overlapFree rest))

/-- A store whose id column the repository's own id assignment could have
produced: pairwise-distinct ids, none equal to the -1 the overlap detector
uses as its no-exclusion sentinel. -/
def storeWellFormed (store : List ExpRow) : Prop :=
  (store.map (fun r => r.id)).Nodup ∧ ∀ r ∈ store, r.id ≠ -1

instance (store : List ExpRow) : Decidable (storeWellFormed store) := by
  unfold storeWellFormed; infer_instance

/-!
## Concrete instances

Rows are written in column order: id, resourceId, performance, oneToOne,
sideBySide, startDate, endDate, expectationType, active. -/

/-- An active Agent expectation, id 1, resource 7, dates [100, 200]. -/
def rowAgent1 : ExpRow := ⟨1, 7, 2, 1, 0, 100, 200, "Agent", true⟩

/-- The same row with id -1: a stored id that collides with the overlap
detector's no-exclusion sentinel. -/
def rowNegId : ExpRow := ⟨-1, 7, 2, 1, 0, 100, 200, "Agent", true⟩

/-- The same row, archived (active = false). -/
def rowAgent1Inactive : ExpRow := ⟨1, 7, 2, 1, 0, 100, 200, "Agent", false⟩

/-- A row under a different resource and type key. -/
def rowOther : ExpRow := ⟨1, 99, 2, 1, 0, 100, 200, "Workgroup", true⟩

/-- A candidate for resource 7 / Agent with dates [150, 160], inside
`rowAgent1`'s interval. -/
def candMid : Expectation := ⟨7, 1, 1, 1, 150, 160, "Agent", true⟩

/-- A candidate for resource 7 / Agent with valid dates [8000, 8100],
disjoint from [100, 200]. -/
def candAway : Expectation := ⟨7, 1, 1, 1, 8000, 8100, "Agent", true⟩

/-- A candidate whose performance count is negative (fails validation) but
whose dates are valid. -/
def candNegPerf : Expectation := ⟨7, -1, 1, 1, 8000, 8100, "Agent", true⟩

/-!
## Helper lemmas
-/

theorem eq_of_mem_of_id_eq {store : List ExpRow}
    (hnodup : (store.map (fun r => r.id)).Nodup) {a b : ExpRow}
    (ha : a ∈ store) (hb : b ∈ store) (hid : a.id = b.id) : a = b := by
  induction store with
  | nil => cases ha
  | cons x rest ih =>
      rw [List.map_cons, List.nodup_cons] at hnodup
      rcases List.mem_cons.mp ha with ha2 | ha2 <;>
        rcases List.mem_cons.mp hb with hb2 | hb2
      · exact ha2.trans hb2.symm
      · exfalso
        apply hnodup.1
        rw [← ha2, hid]
        exact List.mem_map_of_mem (fun r => r.id) hb2
      · exfalso
        apply hnodup.1
        rw [← hb2, ← hid]
        exact List.mem_map_of_mem (fun r => r.id) ha2
      · exact ih hnodup.2 ha2 hb2

theorem activeConflict_comm {a b : ExpRow} (h : activeConflict a b) :
    activeConflict b a := by
  obtain ⟨ha, hb, ⟨hr, ht⟩, hi⟩ := h
  refine ⟨hb, ha, ⟨hr.symm, ht.symm⟩, ?_⟩
  unfold intervalsIntersect at hi ⊢
  omega

/-- A genuine inclusive-interval intersection always fires the source's
three-way test (with the new interval's endpoints first). -/
theorem overlapTest_of_intersect {ns ne es ee : Int}
    (h : max ns es ≤ min ne ee) : overlapTest ns ne es ee := by
  unfold overlapTest
  omega

/-- When no row in the store passes the filter, the scan reports -1. -/
theorem checkForOverlap_eq_neg_one_of {store : List ExpRow} {rid : Int}
    {ty : String} {s e ig : Int}
    (h : ∀ r ∈ store, ¬ scanHit rid ty s e ig r) :
    checkForOverlap store rid ty s e ig = -1 := by
  induction store with
  | nil => rfl
  | cons row rest ih =>
      rw [checkForOverlap]
      rw [if_neg (h row (List.mem_cons_self row rest))]
      exact ih fun r hr => h r (List.mem_cons_of_mem row hr)

/-- Any value other than -1 reported by the scan is the id of a store row
passing the filter. -/
theorem exists_hit_of_checkForOverlap_ne_neg_one {store : List ExpRow}
    {rid : Int} {ty : String} {s e ig : Int}
    (h : checkForOverlap store rid ty s e ig ≠ -1) :
    ∃ r ∈ store, r.id = checkForOverlap store rid ty s e ig ∧
      scanHit rid ty s e ig r := by
  induction store with
  | nil => exact absurd rfl h
  | cons row rest ih =>
      rw [checkForOverlap] at h ⊢
      by_cases hc : scanHit rid ty s e ig row
      · rw [if_pos hc] at h ⊢
        exact ⟨row, List.mem_cons_self row rest, rfl, hc⟩
      · rw [if_neg hc] at h ⊢
        obtain ⟨r, hr, hid, hhit⟩ := ih h
        exact ⟨r, List.mem_cons_of_mem row hr, hid, hhit⟩

/-- If every store row has an id other than -1, a -1 scan result means no row
passes the filter. -/
theorem no_hit_of_checkForOverlap_eq_neg_one {store : List ExpRow}
    {rid : Int} {ty : String} {s e ig : Int}
    (hids : ∀ r ∈ store, r.id ≠ -1)
    (h : checkForOverlap store rid ty s e ig = -1) :
    ∀ r ∈ store, ¬ scanHit rid ty s e ig r := by
  induction store with
  | nil => intro r hr; cases hr
  | cons row rest ih =>
      rw [checkForOverlap] at h
      by_cases hc : scanHit rid ty s e ig row
      · rw [if_pos hc] at h
        exact absurd h (hids row (List.mem_cons_self row rest))
      · rw [if_neg hc] at h
        intro r hr
        rcases List.mem_cons.mp hr with hhead | htail
        · exact hhead ▸ hc
        · exact ih (fun x hx => hids x (List.mem_cons_of_mem row hx)) h r htail

theorem findById_mem {store : List ExpRow} {i : Int} {row : ExpRow}
    (h : findById store i = some row) : row ∈ store ∧ row.id = i := by
  induction store with
  | nil => cases h
  | cons x rest ih =>
      rw [findById] at h
      by_cases hx : x.id = i
      · rw [if_pos hx] at h
        injection h with h2
        subst h2
        exact ⟨List.mem_cons_self x rest, hx⟩
      · rw [if_neg hx] at h
        obtain ⟨hm, hid⟩ := ih h
        exact ⟨List.mem_cons_of_mem x hm, hid⟩

theorem mem_replaceFirstById {store : List ExpRow} {i : Int}
    {n x : ExpRow} (h : x ∈ replaceFirstById store i n) :
    x ∈ store ∨ x = n := by
  induction store with
  | nil => cases h
  | cons row rest ih =>
      rw [replaceFirstById] at h
      by_cases hr : row.id = i
      · rw [if_pos hr] at h
        rcases List.mem_cons.mp h with hx | hx
        · exact Or.inr hx
        · exact Or.inl (List.mem_cons_of_mem row hx)
      · rw [if_neg hr] at h
        rcases List.mem_cons.mp h with hx | hx
        · exact Or.inl (hx ▸ List.mem_cons_self row rest)
        · rcases ih hx with hx2 | hx2
          · exact Or.inl (List.mem_cons_of_mem row hx2)
          · exact Or.inr hx2

/-- Appending a row that conflicts with no existing row keeps the store
overlap-free. -/
theorem overlapFree_append_singleton {store : List ExpRow} {n : ExpRow}
    (hof : overlapFree store) (hn : ∀ r ∈ store, ¬ activeConflict r n) :
    overlapFree (store ++ [n]) := by
  induction store with
  | nil => exact ⟨fun x hx => absurd hx (List.not_mem_nil x), trivial⟩
  | cons row rest ih =>
      refine ⟨?_, ih hof.2 fun r hr => hn r (List.mem_cons_of_mem row hr)⟩
      intro x hx
      rcases List.mem_append.mp hx with hx2 | hx2
      · exact hof.1 x hx2
      · rw [List.mem_singleton.mp hx2]
        exact hn row (List.mem_cons_self row rest)

/-- Replacing the unique row carrying id `i` with a row that conflicts with no
row of another id keeps the store overlap-free. -/
theorem overlapFree_replaceFirstById {store : List ExpRow} {i : Int}
    {n : ExpRow} (hnodup : (store.map (fun r => r.id)).Nodup)
    (hof : overlapFree store)
    (hn : ∀ r ∈ store, r.id ≠ i → ¬ activeConflict n r) :
    overlapFree (replaceFirstById store i n) := by
  induction store with
  | nil => exact trivial
  | cons row rest ih =>
      rw [List.map_cons, List.nodup_cons] at hnodup
      rw [replaceFirstById]
      by_cases hr : row.id = i
      · rw [if_pos hr]
        refine ⟨?_, hof.2⟩
        intro x hx
        have hxid : x.id ≠ i := by
          intro hxi
          exact hnodup.1 (hr ▸ hxi ▸ List.mem_map_of_mem (fun r => r.id) hx)
        exact hn x (List.mem_cons_of_mem row hx) hxid
      · rw [if_neg hr]
        refine ⟨?_, ih hnodup.2 hof.2
          (fun r hrm hri => hn r (List.mem_cons_of_mem row hrm) hri)⟩
        intro x hx
        rcases mem_replaceFirstById hx with hx2 | hx2
        · exact hof.1 x hx2
        · rw [hx2]
          intro hconf
          exact hn row (List.mem_cons_self row rest) hr
            (activeConflict_comm hconf)

theorem foldl_max_mem (l : List Int) (a : Int) :
    l.foldl max a = a ∨ l.foldl max a ∈ l := by
  induction l generalizing a with
  | nil => exact Or.inl rfl
  | cons b bs ih =>
      rw [List.foldl_cons]
      rcases ih (max a b) with h | h
      · rcases max_choice a b with hm | hm
        · exact Or.inl (h.trans hm)
        · refine Or.inr ?_
          rw [h, hm]
          exact List.mem_cons_self b bs
      · exact Or.inr (List.mem_cons_of_mem b h)

theorem le_foldl_max (l : List Int) (a : Int) :
    a ≤ l.foldl max a ∧ ∀ x ∈ l, x ≤ l.foldl max a := by
  induction l generalizing a with
  | nil => exact ⟨le_refl a, fun x hx => absurd hx (List.not_mem_nil x)⟩
  | cons b bs ih =>
      rw [List.foldl_cons]
      obtain ⟨h1, h2⟩ := ih (max a b)
      refine ⟨le_trans (le_max_left a b) h1, ?_⟩
      intro x hx
      rcases List.mem_cons.mp hx with hx2 | hx2
      · rw [hx2]
        exact le_trans (le_max_right a b) h1
      · exact h2 x hx2

/-- A successful `addNewExpectation` on a well-formed overlap-free store
leaves the store overlap-free. -/
theorem add_preserves_overlapFree {store : List ExpRow} {e : Expectation}
    {n : Int} {st2 : List ExpRow}
    (hwf : storeWellFormed store) (hof : overlapFree store)
    (h : addNewExpectation store e = (Except.ok n, st2)) :
    overlapFree st2 := by
  simp only [addNewExpectation] at h
  split at h
  · simp at h
  · rename_i hc
    rw [not_not] at hc
    split at h
    · simp at h
    · rename_i newId hnew
      obtain ⟨hid, hst⟩ := Prod.mk.injEq .. ▸ h
      obtain rfl : newId = n := Except.ok.injEq .. ▸ hid
      subst hst
      apply overlapFree_append_singleton hof
      intro r hr hconf
      obtain ⟨hra, hna, ⟨hrid, hrty⟩, hint⟩ := hconf
      apply no_hit_of_checkForOverlap_eq_neg_one hwf.2 hc r hr
      refine ⟨hra, hrid, hrty, hwf.2 r hr, overlapTest_of_intersect ?_⟩
      unfold intervalsIntersect at hint
      simp only [toRow] at hint
      omega

/-- A successful `updateExpectationData` on a well-formed overlap-free store
leaves the store overlap-free. -/
theorem update_preserves_overlapFree {store : List ExpRow}
    {expectationId : Int} {e : Expectation} {st2 : List ExpRow}
    (hwf : storeWellFormed store) (hof : overlapFree store)
    (h : updateExpectationData store expectationId e = (Except.ok (), st2)) :
    overlapFree st2 := by
  simp only [updateExpectationData] at h
  split at h
  · simp at h
  · split at h
    · simp at h
    · rename_i row hrow
      split at h
      · simp at h
      · rename_i hc
        rw [not_not] at hc
        obtain ⟨-, hst⟩ := Prod.mk.injEq .. ▸ h
        subst hst
        apply overlapFree_replaceFirstById hwf.1 hof
        intro r hr hrid hconf
        obtain ⟨hna, hra, ⟨hkr, hkt⟩, hint⟩ := hconf
        apply no_hit_of_checkForOverlap_eq_neg_one hwf.2 hc r hr
        simp only [toRow] at hkr hkt hna
        refine ⟨hra, hkr.symm, hkt.symm, hrid, overlapTest_of_intersect ?_⟩
        unfold intervalsIntersect at hint
        simp only [toRow] at hint
        omega

/-- A successful `setExpectationStatus` on a well-formed overlap-free store
leaves the store overlap-free. -/
theorem setStatus_preserves_overlapFree {store : List ExpRow}
    {expectationId : Int} {isActive : Bool} {st2 : List ExpRow}
    (hwf : storeWellFormed store) (hof : overlapFree store)
    (h : setExpectationStatus store expectationId isActive = (Except.ok (), st2)) :
    overlapFree st2 := by
  simp only [setExpectationStatus] at h
  split at h
  · simp at h
  · rename_i row hrow
    split at h
    · rename_i hact
      split at h
      · simp at h
      · rename_i hc
        rw [not_not] at hc
        obtain ⟨-, hst⟩ := Prod.mk.injEq .. ▸ h
        subst hst
        apply overlapFree_replaceFirstById hwf.1 hof
        intro r hr hrid hconf
        obtain ⟨hna, hra, ⟨hkr, hkt⟩, hint⟩ := hconf
        apply no_hit_of_checkForOverlap_eq_neg_one hwf.2 hc r hr
        simp only at hkr hkt
        refine ⟨hra, hkr.symm, hkt.symm, hwf.2 r hr, overlapTest_of_intersect ?_⟩
        unfold intervalsIntersect at hint
        simp only at hint
        omega
    · rename_i hact
      obtain ⟨-, hst⟩ := Prod.mk.injEq .. ▸ h
      subst hst
      apply overlapFree_replaceFirstById hwf.1 hof
      intro r hr hrid hconf
      obtain ⟨hna, hra, hk, hint⟩ := hconf
      simp only at hna
      rw [Bool.not_eq_true] at hact
      rw [hact] at hna
      cases hna

/-!
## Claim theorems
-/

/-- C3: `validateExpectation(candidate)` succeeds exactly when the three
cadence counts are at least 0, the start date is at or after 1/1/1990, the
end date is at or before 12/31/3000, and the end date is not before the
start date; any other candidate is rejected with the validation error (the
check is a pure function, so a failure has no side effects). -/
theorem validateExpectation_ok_iff :
    ∀ e : Expectation,
      (validateExpectation e = Except.ok () ↔
        (0 ≤ e.performance ∧ 0 ≤ e.oneToOne ∧ 0 ≤ e.sideBySide ∧
          date19900101 ≤ e.startDate ∧ e.endDate ≤ date30001231 ∧
          e.startDate ≤ e.endDate)) ∧
      (validateExpectation e = Except.ok () ∨
        validateExpectation e = Except.error ApiErr.validationFailed) := by
  intro e
  unfold validateExpectation
  split
  · rename_i h
    exact ⟨⟨fun _ => h, fun _ => rfl⟩, Or.inl rfl⟩
  · rename_i h
    refine ⟨⟨fun hh => ?_, fun hh => absurd hh h⟩, Or.inr rfl⟩
    cases hh

/-- C4: `checkForOverlap` returns the id of the first row in storage order
that is active, matches the queried resourceId and expectationType exactly,
has an id different from the exclusion, and whose inclusive interval meets
the query interval under the three-way test (shared boundaries and full
containment included); it returns -1 when no such row exists.  The closed
conjuncts instantiate the boundary cases: a shared boundary date conflicts,
an adjacent disjoint range does not, and an inactive row never conflicts. -/
theorem checkForOverlap_first_match :
    (∀ (store : List ExpRow) (rid : Int) (ty : String) (s e ig : Int),
      checkForOverlap store rid ty s e ig =
        match store.find? (fun r => decide (scanHit rid ty s e ig r)) with
        | some r => r.id
        | none => -1) ∧
    checkForOverlap [rowAgent1] 7 "Agent" 200 300 (-1) = 1 ∧
    checkForOverlap [rowAgent1] 7 "Agent" 201 300 (-1) = -1 ∧
    checkForOverlap [rowAgent1Inactive] 7 "Agent" 150 160 (-1) = -1 := by
  refine ⟨?_, by decide, by decide, by decide⟩
  intro store rid ty s e ig
  induction store with
  | nil => rfl
  | cons row rest ih =>
      rw [checkForOverlap]
      by_cases hc : scanHit rid ty s e ig row
      · rw [if_pos hc, List.find?_cons_of_pos _ (by simpa using hc)]
      · rw [if_neg hc, List.find?_cons_of_neg _ (by simpa using hc), ih]

/-- C1 counterexample: the claim fails as stated.  The one-row store holding
an active expectation with id -1 satisfies the overlap invariant, yet adding
an overlapping candidate for the same resource and type succeeds (the
detector's `id != ignoreId` filter skips the row, -1 being the no-exclusion
sentinel) and the resulting store violates the invariant. -/
theorem sentinel_id_breaks_overlap_invariant :
    overlapFree [rowNegId] ∧
    (addNewExpectation [rowNegId] candMid).1 = Except.ok 0 ∧
    ¬ overlapFree (addNewExpectation [rowNegId] candMid).2 :=
  ⟨by decide, rfl, by decide⟩

/-- C1 (amended): on a store whose row ids are pairwise distinct and never
the detector's -1 sentinel, every successful `addNewExpectation`,
`updateExpectationData` and `setExpectationStatus` preserves the invariant
that no two active rows with the same resourceId and expectationType have
intersecting inclusive date intervals. -/
theorem mutations_preserve_overlap_invariant :
    ∀ store : List ExpRow, storeWellFormed store → overlapFree store →
      (∀ (e : Expectation) (n : Int) (st2 : List ExpRow),
        addNewExpectation store e = (Except.ok n, st2) → overlapFree st2) ∧
      (∀ (i : Int) (e : Expectation) (st2 : List ExpRow),
        updateExpectationData store i e = (Except.ok (), st2) → overlapFree st2) ∧
      (∀ (i : Int) (b : Bool) (st2 : List ExpRow),
        setExpectationStatus store i b = (Except.ok (), st2) → overlapFree st2) :=
  fun _ hwf hof =>
    ⟨fun _ _ _ h => add_preserves_overlapFree hwf hof h,
     fun _ _ _ h => update_preserves_overlapFree hwf hof h,
     fun _ _ _ h => setStatus_preserves_overlapFree hwf hof h⟩

/-- C1 witness: the amended theorem applied to a concrete well-formed
overlap-free store and a successful add. -/
theorem mutations_preserve_overlap_invariant_witness :
    overlapFree (addNewExpectation [rowAgent1] candAway).2 :=
  (mutations_preserve_overlap_invariant [rowAgent1] (by decide) (by decide)).1
    candAway 2 (addNewExpectation [rowAgent1] candAway).2 rfl

/-- C2: `addNewExpectation` performs no field validation.  A candidate with a
negative performance count - which `validateExpectation` rejects - is
appended anyway and a new id is returned, contradicting the claim that add
runs the Validator before the Overlap Detector (and the function's own doc
comment, which promises an error when validation fails). -/
theorem addNewExpectation_skips_validation :
    validateExpectation candNegPerf = Except.error ApiErr.validationFailed ∧
    addNewExpectation [rowOther] candNegPerf =
      (Except.ok 2, [rowOther, toRow 2 candNegPerf]) :=
  ⟨rfl, rfl⟩

/-- C5 counterexample: `setExpectationStatus` transitioning to active invokes
the Overlap Detector with no exclusion, so an already-active record is
reported as conflicting with itself: on the one-row store, activating id 1
fails with a conflict naming id 1. -/
theorem setExpectationStatus_self_conflict :
    (setExpectationStatus [rowAgent1] 1 true).1 =
      Except.error (ApiErr.conflictingExpectation 1) := rfl

/-- C5 (amended): `updateExpectationData` passes the existing record's id as
the exclusion, so an update whose only overlap is the record itself succeeds;
`setExpectationStatus` passes no exclusion, but a record that is currently
inactive is skipped by the detector's active filter, so reactivating an
inactive record never reports the record itself (any conflict it reports
names a different id); only an already-active record self-conflicts. -/
theorem exclusion_discipline :
    ∀ (store : List ExpRow) (i : Int) (e : Expectation) (row : ExpRow),
      ((validateExpectation e = Except.ok () ∧ findById store i = some row ∧
        (∀ r ∈ store, r.id ≠ i →
          ¬ (r.active = true ∧ r.resourceId = e.resourceId ∧
             r.expectationType = e.expectationType ∧
             overlapTest e.startDate e.endDate r.startDate r.endDate))) →
        (updateExpectationData store i e).1 = Except.ok ()) ∧
      (((store.map (fun r => r.id)).Nodup ∧ findById store i = some row ∧
          row.active = false) →
        ∀ c, (setExpectationStatus store i true).1 =
            Except.error (ApiErr.conflictingExpectation c) → c ≠ i) := by
  intro store i e row
  constructor
  · rintro ⟨hval, hfind, hother⟩
    have hc : checkForOverlap store e.resourceId e.expectationType
        e.startDate e.endDate i = -1 := by
      apply checkForOverlap_eq_neg_one_of
      intro r hr hhit
      obtain ⟨h1, h2, h3, h4, h5⟩ := hhit
      exact hother r hr h4 ⟨h1, h2, h3, h5⟩
    simp only [updateExpectationData, hval, hfind, hc]
    simp
  · rintro ⟨hnodup, hfind, hinact⟩ c hres
    intro hci
    subst hci
    simp only [setExpectationStatus, hfind] at hres
    rw [if_pos trivial] at hres
    by_cases hc : checkForOverlap store row.resourceId row.expectationType
        row.startDate row.endDate (-1) ≠ -1
    · rw [if_pos hc] at hres
      simp only [Except.error.injEq, ApiErr.conflictingExpectation.injEq] at hres
      obtain ⟨r, hr, hid, hhit⟩ := exists_hit_of_checkForOverlap_ne_neg_one hc
      rw [hres] at hid
      have hrowmem := findById_mem hfind
      have : r = row := eq_of_mem_of_id_eq hnodup hr hrowmem.1
        (by rw [hid, hrowmem.2])
      rw [this] at hhit
      obtain ⟨hact, -⟩ := hhit
      rw [hinact] at hact
      cases hact
    · rw [if_neg hc] at hres
      cases hres

/-- C6: deactivation (`setExpectationStatus(id, false)`) never performs the
overlap scan (its effect trace contains no full-range read), succeeds for
every id present in the store regardless of overlapping rows, and the only
error it can raise is not-found - never a conflicting-expectation error. -/
theorem deactivation_never_overlap_checks :
    ∀ (store : List ExpRow) (i : Int),
      (setExpectationStatusTrace store i false).contains Effect.scanRows = false ∧
      (∀ row, findById store i = some row →
        (setExpectationStatus store i false).1 = Except.ok ()) ∧
      (∀ err, (setExpectationStatus store i false).1 = Except.error err →
        err = ApiErr.notFound i) := by
  intro store i
  rcases hfind : findById store i with _ | row
  · refine ⟨?_, ?_, ?_⟩
    · simp [setExpectationStatusTrace, hfind]
    · intro row hrow
      simp [hfind] at hrow
    · intro err herr
      simp only [setExpectationStatus, hfind] at herr
      simp only [Except.error.injEq] at herr
      exact herr.symm
  · refine ⟨?_, ?_, ?_⟩
    · simp [setExpectationStatusTrace, hfind, updateModifiedByTrace,
        List.contains]
    · intro row2 hrow2
      simp only [setExpectationStatus, hfind]
      simp
    · intro err herr
      simp only [setExpectationStatus, hfind] at herr
      simp at herr

/-- C7 counterexample: on an empty expectation store `addNewExpectation`
does not assign a seed id - there is no finite `Math.max` over an empty id
column (and the zero-row range reads throw), so the operation fails and
appends nothing. -/
theorem add_on_empty_store_fails :
    addNewExpectation [] candAway = (Except.error ApiErr.emptyStore, []) := rfl

/-- C7 (amended): a successful `addNewExpectation` on a non-empty store
returns one greater than the maximum existing id (some existing row carries
id n - 1 and every existing id is at most n - 1); on an empty store the
operation fails rather than assigning a seed id. -/
theorem add_assigns_max_plus_one :
    ∀ (store : List ExpRow) (e : Expectation) (n : Int) (st2 : List ExpRow),
      (addNewExpectation store e = (Except.ok n, st2) →
        (∃ r ∈ store, r.id = n - 1) ∧ (∀ r ∈ store, r.id ≤ n - 1)) ∧
      (addNewExpectation [] e).1 = Except.error ApiErr.emptyStore := by
  intro store e n st2
  constructor
  · intro h
    simp only [addNewExpectation] at h
    split at h
    · simp at h
    · split at h
      · simp at h
      · rename_i newId hnew
        obtain ⟨hid, -⟩ := Prod.mk.injEq .. ▸ h
        have hn2 : newId = n := Except.ok.injEq .. ▸ hid
        subst hn2
        cases store with
        | nil => cases hnew
        | cons row rest =>
            simp only [newIdOfStore, Option.some.injEq] at hnew
            constructor
            · rcases foldl_max_mem (rest.map (fun r => r.id)) row.id with hm | hm
              · exact ⟨row, List.mem_cons_self row rest, by omega⟩
              · obtain ⟨r, hr, hrid⟩ := List.mem_map.mp hm
                exact ⟨r, List.mem_cons_of_mem row hr, by omega⟩
            · intro r hr
              have hle := le_foldl_max (rest.map (fun x => x.id)) row.id
              rcases List.mem_cons.mp hr with h2 | h2
              · rw [h2]
                have := hle.1
                omega
              · have hmem : r.id ∈ rest.map (fun x => x.id) :=
                  List.mem_map_of_mem (fun x => x.id) h2
                have := hle.2 r.id hmem
                omega
  · rfl

/-- C8: whenever `addNewExpectation`, `updateExpectationData` or
`setExpectationStatus` fails - validation, conflicting-expectation,
not-found or the empty-store failure - the expectation store is left exactly
as it was: no row appended, no row modified. -/
theorem failure_leaves_store_unchanged :
    ∀ (store : List ExpRow) (e : Expectation) (i : Int) (b : Bool),
      (∀ err, (addNewExpectation store e).1 = Except.error err →
        (addNewExpectation store e).2 = store) ∧
      (∀ err, (updateExpectationData store i e).1 = Except.error err →
        (updateExpectationData store i e).2 = store) ∧
      (∀ err, (setExpectationStatus store i b).1 = Except.error err →
        (setExpectationStatus store i b).2 = store) := by
  intro store e i b
  refine ⟨?_, ?_, ?_⟩
  · intro err h
    by_cases hc : checkForOverlap store e.resourceId e.expectationType
        e.startDate e.endDate (-1) ≠ -1
    · simp only [addNewExpectation, if_pos hc]
    · rcases hnew : newIdOfStore store with _ | newId
      · simp only [addNewExpectation, if_neg hc, hnew]
      · simp only [addNewExpectation, if_neg hc, hnew] at h
        simp at h
  · intro err h
    rcases hval : validateExpectation e with e2 | u
    · simp only [updateExpectationData, hval]
    · rcases hfind : findById store i with _ | row
      · simp only [updateExpectationData, hval, hfind]
      · by_cases hc : checkForOverlap store e.resourceId e.expectationType
            e.startDate e.endDate i ≠ -1
        · simp only [updateExpectationData, hval, hfind, if_pos hc]
        · simp only [updateExpectationData, hval, hfind, if_neg hc] at h
          simp at h
  · intro err h
    rcases hfind : findById store i with _ | row
    · simp only [setExpectationStatus, hfind]
    · cases b
      · simp only [setExpectationStatus, hfind] at h
        simp at h
      · by_cases hc : checkForOverlap store row.resourceId
            row.expectationType row.startDate row.endDate (-1) ≠ -1
        · simp only [setExpectationStatus, hfind, if_pos trivial, if_pos hc]
        · simp only [setExpectationStatus, hfind, if_pos trivial,
            if_neg hc] at h
          simp at h

/-- C9: none of the three expectation mutation operations ever acquires the
script lock: their effect traces (reads of the table, the overlap scan,
writes and appends) contain no lock acquisition, while the `_withLock`
wrapper - used by the question/form helpers such as `_addRow` - always
acquires it first.  The closed conjunct evaluates a successful add: it reads
the table twice and writes three times, entirely outside any lock. -/
theorem expectation_mutations_never_lock :
    ∀ (store : List ExpRow) (e : Expectation) (i : Int) (b : Bool),
      (addNewExpectationTrace store e).contains Effect.lockAcquire = false ∧
      (updateExpectationDataTrace store i e).contains Effect.lockAcquire = false ∧
      (setExpectationStatusTrace store i b).contains Effect.lockAcquire = false ∧
      addRowTrace.contains Effect.lockAcquire = true ∧
      addNewExpectationTrace [rowAgent1] candAway =
        [Effect.scanRows, Effect.readIdCol, Effect.appendRow,
          Effect.readEmployee, Effect.writeCell, Effect.writeCell] := by
  intro store e i b
  refine ⟨?_, ?_, ?_, by decide, by decide⟩
  · by_cases hc : checkForOverlap store e.resourceId e.expectationType
        e.startDate e.endDate (-1) ≠ -1
    · simp only [addNewExpectationTrace, if_pos hc]
      rfl
    · rcases hnew : newIdOfStore store with _ | newId
      · simp only [addNewExpectationTrace, if_neg hc, hnew]
        rfl
      · simp only [addNewExpectationTrace, if_neg hc, hnew]
        rfl
  · rcases hval : validateExpectation e with e2 | u
    · simp only [updateExpectationDataTrace, hval]
      rfl
    · rcases hfind : findById store i with _ | row
      · simp only [updateExpectationDataTrace, hval, hfind]
        rfl
      · by_cases hc : checkForOverlap store e.resourceId e.expectationType
            e.startDate e.endDate i ≠ -1
        · simp only [updateExpectationDataTrace, hval, hfind, if_pos hc]
          rfl
        · simp only [updateExpectationDataTrace, hval, hfind, if_neg hc]
          rfl
  · rcases hfind : findById store i with _ | row
    · cases b
      · simp only [setExpectationStatusTrace, hfind]
        rfl
      · simp only [setExpectationStatusTrace, hfind]
        rfl
    · cases b
      · simp only [setExpectationStatusTrace, hfind]
        rfl
      · by_cases hc : checkForOverlap store row.resourceId
            row.expectationType row.startDate row.endDate (-1) ≠ -1
        · simp only [setExpectationStatusTrace, hfind, if_pos trivial,
            if_pos hc]
          rfl
        · simp only [setExpectationStatusTrace, hfind, if_pos trivial,
            if_neg hc]
          rfl
